import Mathlib

/-
Verification development for the FinWise document-chunking, retrieval and
analytics core.  The Python services are shallowly embedded: texts are lists
of characters, Python integers are Lean Int, float arithmetic is idealised
as exact rational or real arithmetic, and the possibly non-terminating
chunking while-loop is embedded with an explicit fuel parameter where the
value none models a loop that is still running after the given number of
iterations.
-/

namespace FinWise

/-! Python string primitives used by the services. -/

/-- Whitespace characters removed by the Python str.strip method
(ASCII subset, which covers every character the services handle). -/
def isPySpace (c : Char) : Bool :=
  c = ' ' || c = '\t' || c = '\n' || c = '\r' || c = '\x0b' || c = '\x0c'

/-- Python str.strip with no argument: drop leading and trailing whitespace. -/
def pyStrip (xs : List Char) : List Char :=
  ((xs.dropWhile isPySpace).reverse.dropWhile isPySpace).reverse

/-- Python slice text[i:j] with step 1, including the normalisation of
negative and out-of-range indices that Python performs. -/
def pySlice (xs : List Char) (i j : Int) : List Char :=
  let n : Int := xs.length
  let lo : Int := if i < 0 then max (n + i) 0 else min i n
  let hi : Int := if j < 0 then max (n + j) 0 else min j n
  (xs.take hi.toNat).drop lo.toNat

/-- Python str.rfind for a single-character needle: the largest index at
which the character occurs, or -1 when it does not occur. -/
def rfindChar : List Char → Char → Int
  | [], _ => -1
  | x :: xs, c =>
    let r := rfindChar xs c
    if r ≥ 0 then r + 1 else if x = c then 0 else -1

/-- Python substring containment (the needle occurs contiguously in the
haystack; an empty needle always occurs). -/
def isSubList (needle : List Char) : List Char → Bool
  | [] => needle.isEmpty
  | c :: rest => needle.isPrefixOf (c :: rest) || isSubList needle rest

/-- Python expression needle in hay on strings. -/
def pyContains (hay needle : String) : Bool :=
  isSubList needle.toList hay.toList

/-- Python str.lower (ASCII lowering, which covers all inputs used here). -/
def pyLower (s : String) : String :=
  String.mk (s.data.map Char.toLower)

/-! Embedding of DocumentProcessor._chunk_text
(src/services/document_processor.py, the while loop of lines 154-184).
The chunk dictionaries become the Chunk structure; the loop becomes a
fuel-indexed recursion whose none value models a loop still running after
fuel iterations.  The keyword-or defaulting of the function header (lines
151-152) is glue outside the loop and is not modelled. -/

/-- Chunk dictionary emitted by the chunker: ordinal, stripped text, the
recorded character offsets and the unstripped slice length. -/
structure Chunk where
  chunk_id : Nat
  text : List Char
  start_char : Int
  end_char : Int
  length : Int
  deriving DecidableEq

/-- End offset chosen for the chunk that starts at start: tentatively
start plus chunk_size, moved back to just after the last period or newline
of the tentative slice when that break point lies past half of chunk_size
and the tentative end is not already at or past the end of the text.
The integer comparison 2 * b > c is exactly the source comparison
b > c * 0.5 for integer b and c. -/
def chunkEnd (text : List Char) (chunkSize start : Int) : Int :=
  if start + chunkSize < (text.length : Int) ∧
      2 * max (rfindChar (pySlice text start (start + chunkSize)) '.')
              (rfindChar (pySlice text start (start + chunkSize)) '\n') > chunkSize
  then start + max (rfindChar (pySlice text start (start + chunkSize)) '.')
                   (rfindChar (pySlice text start (start + chunkSize)) '\n') + 1
  else start + chunkSize

/-- Chunk dictionary appended by one loop iteration starting at start. -/
def mkChunk (text : List Char) (chunkSize start : Int) (cid : Nat) : Chunk :=
  { chunk_id := cid
    text := pyStrip (pySlice text start (chunkEnd text chunkSize start))
    start_char := start
    end_char := chunkEnd text chunkSize start
    length := ((pySlice text start (chunkEnd text chunkSize start)).length : Int) }

/-- Fuel-indexed embedding of the chunker while loop: per iteration, emit
the chunk for the current cursor and advance the cursor to the chunk end
minus the overlap; none means the loop is still running after fuel
iterations. -/
def chunkTextAux (text : List Char) (chunkSize overlap : Int) :
    Nat → Int → Nat → Option (List Chunk)
  | fuel, start, cid =>
    if start < (text.length : Int) then
      match fuel with
      | 0 => none
      | f + 1 =>
        (chunkTextAux text chunkSize overlap f
            (chunkEnd text chunkSize start - overlap) (cid + 1)).map
          (mkChunk text chunkSize start cid :: ·)
    else some []

/-- Chunking operation: run the loop from cursor 0 and ordinal 0 with
enough fuel for one iteration per character of the text plus the final
test (proven sufficient whenever the loop makes forward progress). -/
def chunk_text (text : List Char) (chunkSize overlap : Int) : Option (List Chunk) :=
  chunkTextAux text chunkSize overlap (text.length + 1) 0 0

/-! Embedding of MLService (src/services/ml_service.py).  Transactions are
Python dictionaries whose description and amount keys may be absent, hence
Option fields.  Float arithmetic is idealised as exact real arithmetic. -/

/-- Transaction record handed to the analytics operations; a none field
models a dictionary in which the key is absent. -/
structure Transaction where
  description : Option String
  amount : Option ℝ

/-- Absolute amount entering the anomaly statistics: abs of the amount
value, with the Python dict-get default 0 when the key is absent. -/
noncomputable def absAmount (t : Transaction) : ℝ :=
  |t.amount.getD 0|

/-- Arithmetic mean of a list of reals (np.mean and pandas mean). -/
noncomputable def listMean (xs : List ℝ) : ℝ :=
  xs.sum / (xs.length : ℝ)

/-- Population standard deviation (np.std, delta degrees of freedom 0). -/
noncomputable def popStd (xs : List ℝ) : ℝ :=
  Real.sqrt (((xs.map (fun x => (x - listMean xs) ^ 2)).sum) / (xs.length : ℝ))

/-- Sample standard deviation (pandas Series.std, delta degrees of
freedom 1), as used by forecast_expenses. -/
noncomputable def sampleStd (xs : List ℝ) : ℝ :=
  Real.sqrt (((xs.map (fun x => (x - listMean xs) ^ 2)).sum) / ((xs.length : ℝ) - 1))

/-- Pandas tail: the last n elements of the list. -/
def lastN (n : Nat) (xs : List ℝ) : List ℝ :=
  xs.drop (xs.length - n)

/-- Static keyword table of _init_category_keywords, in the fixed Python
dict insertion order. -/
def category_keywords : List (String × List String) :=
  [ ("Food & Dining", ["grocery", "food", "restaurant", "cafe", "dining", "pizza", "burger"])
  , ("Transportation", ["gas", "fuel", "transport", "uber", "lyft", "taxi", "parking"])
  , ("Housing", ["rent", "mortgage", "property", "lease"])
  , ("Utilities", ["utility", "electric", "water", "gas bill", "internet", "phone"])
  , ("Healthcare", ["medical", "doctor", "pharmacy", "hospital", "health"])
  , ("Entertainment", ["movie", "theater", "concert", "game", "netflix", "spotify"])
  , ("Shopping", ["amazon", "store", "mall", "shop", "retail"])
  , ("Insurance", ["insurance", "policy", "premium"])
  , ("Education", ["school", "tuition", "course", "book"]) ]

/-- Test of one table row against a lowered description: some keyword of
the row occurs as a substring. -/
def matchesCategory (descriptionLower : String) (row : String × List String) : Bool :=
  row.2.any (fun kw => pyContains descriptionLower kw)

/-- Embedding of _categorize_single: lower the description and return the
first category of the table, in table order, with a keyword match, else
the Other label. -/
def categorize_single (description : String) : String :=
  match category_keywords.find? (matchesCategory (pyLower description)) with
  | some row => row.1
  | none => "Other"

/-- Embedding of categorize_expenses: per transaction, lower the
description (dict-get default the empty string) and categorize it. -/
def categorize_expenses (transactions : List Transaction) : List String :=
  transactions.map (fun t => categorize_single (pyLower (t.description.getD "")))

/-- Forecast result dictionary; the baseline key is absent (none) in the
insufficient-data branch. -/
structure ForecastResult where
  forecast : List ℝ
  confidence_interval : List (ℝ × ℝ)
  method : String
  baseline : Option ℝ

/-- Embedding of forecast_expenses on the relevant numeric column of the
input frame (both branches of the source column selection apply the same
tail, mean and std to that column). -/
noncomputable def forecast_expenses (history : List ℝ) (periods : Nat) : ForecastResult :=
  if history.length < 3 then
    { forecast := [], confidence_interval := [], method := "insufficient_data", baseline := none }
  else
    { forecast := List.replicate periods (listMean (lastN 3 history))
      confidence_interval :=
        (List.replicate periods (listMean (lastN 3 history))).map
          (fun f => (f - 1.96 * sampleStd (lastN 3 history), f + 1.96 * sampleStd (lastN 3 history)))
      method := "moving_average"
      baseline := some (listMean (lastN 3 history)) }

/-- Embedding of detect_anomalies: z-score flags on the absolute amounts
(the source local amounts is transactions.map absAmount, written out at
each use), with the two guard branches returning all-false lists. -/
noncomputable def detect_anomalies (transactions : List Transaction) (threshold : ℝ) :
    List Bool :=
  if (transactions.map absAmount).length < 2 then
    List.replicate (transactions.map absAmount).length false
  else if popStd (transactions.map absAmount) = 0 then
    List.replicate (transactions.map absAmount).length false
  else
    (transactions.map absAmount).map
      (fun a => decide (|a - listMean (transactions.map absAmount)| >
        threshold * popStd (transactions.map absAmount)))

/-! Embedding of RAGService.query (src/services/rag_service.py).  The
awaited collaborator calls (vector search, language-model generation) and
the two wall-clock readings become parameters; the returned dictionary
becomes the QueryResult structure, whose num_sources field is an Option
because the zero-result branch of the source builds a dictionary without
that key. -/

/-- Search result dictionary produced by the vector store; metadata is an
association list of rendered string values and distance is none when the
backend response has no distances key. -/
structure SearchResult where
  id : String
  document : String
  metadata : List (String × String)
  distance : Option ℚ
  deriving DecidableEq

/-- Lookup of a metadata key (Python key-in-dict plus indexing). -/
def lookupMeta (metadata : List (String × String)) (key : String) : Option String :=
  (metadata.find? (fun kv => kv.1 = key)).map (fun kv => kv.2)

/-- Labeled source block of _build_context for the 1-based result index i:
Source i, the filename in parentheses when present, the page when present,
then a colon, a newline and the document text followed by a newline. -/
def sourceBlock (i : Nat) (r : SearchResult) : String :=
  "Source " ++ toString i
    ++ (match lookupMeta r.metadata "filename" with
        | some f => " (" ++ f ++ ")"
        | none => "")
    ++ (match lookupMeta r.metadata "page" with
        | some p => " - Page " ++ p
        | none => "")
    ++ ":\n" ++ r.document ++ "\n"

/-- Embedding of _build_context: the source blocks joined by newlines. -/
def build_context (results : List SearchResult) : String :=
  String.intercalate "\n" (results.enum.map (fun ir => sourceBlock (ir.1 + 1) ir.2))

/-- Result dictionary of RAGService.query; num_sources is none exactly
when the key is absent from the built dictionary. -/
structure QueryResult where
  answer : String
  sources : List SearchResult
  context_used : String
  processing_time : ℚ
  model_used : String
  num_sources : Option Nat
  deriving DecidableEq

/-- Fixed answer of the zero-result short-circuit branch. -/
def noInfoAnswer : String :=
  "I couldn\x27t find any relevant information in the documents to answer your question."

/-- Embedding of RAGService.query: searchResults is the value returned by
the awaited vector search, genAnswer the value returned by the awaited
generation call on the non-empty path, and t0, t1 the two wall-clock
readings (time is not modelled beyond these two samples). -/
def rag_query (searchResults : List SearchResult) (genAnswer : String)
    (model : String) (t0 t1 : ℚ) : QueryResult :=
  if searchResults.isEmpty then
    { answer := noInfoAnswer
      sources := []
      context_used := ""
      processing_time := t1 - t0
      model_used := model
      num_sources := none }
  else
    { answer := genAnswer
      sources := searchResults
      context_used := build_context searchResults
      processing_time := t1 - t0
      model_used := model
      num_sources := some searchResults.length }

/-! Embedding of VectorStoreService (src/services/vector_store.py).  The
chroma and sentence-transformer backend calls become Except-valued
parameters; an operation whose try block re-raises is a function that
propagates the backend error, while get_collection_stats catches the
error and returns an empty dictionary. -/

/-- Value of one entry of the stats dictionary. -/
inductive StatValue where
  | nat (n : Nat)
  | str (s : String)
  deriving DecidableEq

/-- Raw response of collection.query: per-query rows of ids, documents and
metadatas, and a distances key that may be absent. -/
structure ChromaQueryResponse where
  ids : List (List String)
  documents : List (List String)
  metadatas : List (List (List (String × String)))
  distances : Option (List (List ℚ))

/-- Formatting loop of VectorStoreService.search: when the ids value is
non-empty and its first row is non-empty, build one SearchResult per entry
of the first row (Python would raise IndexError on a response whose other
rows are shorter; the getD defaults never fire on well-formed responses). -/
def formatSearchResults (r : ChromaQueryResponse) : List SearchResult :=
  match r.ids with
  | [] => []
  | row :: _ =>
    if row.length > 0 then
      (List.range row.length).map (fun i =>
        { id := row.getD i ""
          document := (r.documents.getD 0 []).getD i ""
          metadata := (r.metadatas.getD 0 []).getD i []
          distance := match r.distances with
            | some ds => some ((ds.getD 0 []).getD i 0)
            | none => none })
    else []

/-- Embedding of VectorStoreService.search: embed the query (may fail),
run the collection query (may fail), then format; the except block of the
source logs and re-raises, so failures propagate. -/
def vs_search (embedQuery : Except String (List ℚ))
    (runQuery : List ℚ → Except String ChromaQueryResponse) :
    Except String (List SearchResult) := do
  let emb ← embedQuery
  let raw ← runQuery emb
  pure (formatSearchResults raw)

/-- Embedding of VectorStoreService.add_documents: encode the texts (may
fail) then add to the collection (may fail); failures propagate. -/
def vs_add (encodeTexts : Except String (List (List ℚ)))
    (collectionAdd : List (List ℚ) → Except String Unit) : Except String Unit := do
  let embeddings ← encodeTexts
  collectionAdd embeddings

/-- Embedding of VectorStoreService.delete_documents: the collection
delete call, whose failure propagates. -/
def vs_delete (collectionDelete : Except String Unit) : Except String Unit :=
  collectionDelete

/-- Embedding of VectorStoreService.clear_collection: delete then recreate
the collection; failures of either call propagate. -/
def vs_clear (deleteCollection : Except String Unit)
    (createCollection : Except String Unit) : Except String Unit := do
  deleteCollection
  createCollection

/-- Embedding of VectorStoreService.get_collection_stats: on a successful
count, the three-key stats dictionary; on a failed count, the except block
swallows the error and returns an empty dictionary instead of raising. -/
def get_collection_stats (countCall : Except String Nat)
    (collectionName : String) (embeddingDimension : Nat) : List (String × StatValue) :=
  match countCall with
  | .ok c =>
      [ ("total_documents", .nat c)
      , ("collection_name", .str collectionName)
      , ("embedding_dimension", .nat embeddingDimension) ]
  | .error _ => []

/-! Helper lemmas about the chunker. -/

@[simp] lemma mkChunk_chunk_id (text : List Char) (c start : Int) (cid : Nat) :
    (mkChunk text c start cid).chunk_id = cid := rfl

@[simp] lemma mkChunk_start_char (text : List Char) (c start : Int) (cid : Nat) :
    (mkChunk text c start cid).start_char = start := rfl

@[simp] lemma mkChunk_end_char (text : List Char) (c start : Int) (cid : Nat) :
    (mkChunk text c start cid).end_char = chunkEnd text c start := rfl

/-- Forward progress of the loop cursor: when the overlap is below the
chunk size and also at most half the chunk size plus one, every iteration
strictly advances the cursor. -/
lemma chunkEnd_progress (text : List Char) (c o start : Int)
    (h1 : o < c) (h2 : 2 * o ≤ c + 2) : start < chunkEnd text c start - o := by
  unfold chunkEnd
  split_ifs with h
  · obtain ⟨-, h4⟩ := h
    omega
  · omega

/-- The chunk end is strictly past the chunk start whenever the chunk
size is positive. -/
lemma chunkEnd_gt_start (text : List Char) (c : Int) (hc : 0 < c) (start : Int) :
    start < chunkEnd text c start := by
  unfold chunkEnd
  split_ifs with h
  · obtain ⟨-, h4⟩ := h
    omega
  · omega

/-- A cursor value inside the text that the step function maps to itself
is a genuine infinite loop: no amount of fuel finishes the recursion. -/
lemma chunkTextAux_fix (text : List Char) (c o s : Int)
    (hs : s < (text.length : Int)) (hfix : chunkEnd text c s - o = s) :
    ∀ (fuel : Nat) (cid : Nat), chunkTextAux text c o fuel s cid = none := by
  intro fuel
  induction fuel with
  | zero =>
    intro cid
    rw [chunkTextAux, if_pos hs]
  | succ f ih =>
    intro cid
    rw [chunkTextAux, if_pos hs]
    show (chunkTextAux text c o f (chunkEnd text c s - o) (cid + 1)).map _ = none
    rw [hfix, ih (cid + 1)]
    rfl

/-- Main loop invariant: with forward progress and fuel exceeding the
remaining distance to the end of the text, the loop terminates and emits
chunks with consecutive ordinals from cid, strictly increasing start
offsets, all start offsets at least the entry cursor, and at least one
chunk when the entry cursor is inside the text. -/
lemma chunkTextAux_spec (text : List Char) (c o : Int)
    (h1 : o < c) (h2 : 2 * o ≤ c + 2) :
    ∀ (fuel : Nat) (start : Int) (cid : Nat), (text.length : Int) < start + fuel →
    ∃ cs, chunkTextAux text c o fuel start cid = some cs ∧
      cs.map Chunk.chunk_id = List.range' cid cs.length ∧
      List.Chain' (· < ·) (cs.map Chunk.start_char) ∧
      (∀ ch ∈ cs, start ≤ ch.start_char) ∧
      (start < (text.length : Int) → cs ≠ []) := by
  intro fuel
  induction fuel with
  | zero =>
    intro start cid hf
    have hns : ¬ start < (text.length : Int) := by omega
    refine ⟨[], ?_, rfl, ?_, ?_, ?_⟩
    · rw [chunkTextAux, if_neg hns]
    · simp
    · intro ch hch
      simp at hch
    · intro h
      exact absurd h hns
  | succ f ih =>
    intro start cid hf
    by_cases hs : start < (text.length : Int)
    · have hprog : start < chunkEnd text c start - o := chunkEnd_progress text c o start h1 h2
      obtain ⟨cs', heq', hids', hchain', hlb', -⟩ :=
        ih (chunkEnd text c start - o) (cid + 1) (by omega)
      refine ⟨mkChunk text c start cid :: cs', ?_, ?_, ?_, ?_, ?_⟩
      · rw [chunkTextAux, if_pos hs]
        show (chunkTextAux text c o f (chunkEnd text c start - o) (cid + 1)).map _ = _
        rw [heq']
        rfl
      · show cid :: cs'.map Chunk.chunk_id = List.range' cid (cs'.length + 1)
        rw [hids']
        rfl
      · show List.Chain' (· < ·) (start :: cs'.map Chunk.start_char)
        rw [List.chain'_cons']
        refine ⟨?_, hchain'⟩
        intro y hy
        cases cs' with
        | nil => simp at hy
        | cons a l =>
          simp only [List.map_cons, List.head?_cons, Option.mem_def,
            Option.some.injEq] at hy
          have hb := hlb' a (List.mem_cons_self a l)
          omega
      · intro ch hch
        rcases List.mem_cons.mp hch with h | h
        · rw [h]
          simp
        · have := hlb' ch h
          omega
      · intro _
        exact List.cons_ne_nil _ _
    · refine ⟨[], ?_, rfl, ?_, ?_, ?_⟩
      · rw [chunkTextAux, if_neg hs]
      · simp
      · intro ch hch
        simp at hch
      · intro h
        exact absurd h hs

/-- Every chunk of a terminating run has its end offset strictly past its
start offset, for any positive chunk size. -/
lemma chunkTextAux_end_gt_start (text : List Char) (c o : Int) (hc : 0 < c) :
    ∀ (fuel : Nat) (start : Int) (cid : Nat) (cs : List Chunk),
      chunkTextAux text c o fuel start cid = some cs →
      ∀ ch ∈ cs, ch.start_char < ch.end_char := by
  intro fuel
  induction fuel with
  | zero =>
    intro start cid cs heq ch hch
    by_cases hs : start < (text.length : Int)
    · rw [chunkTextAux, if_pos hs] at heq
      exact Option.noConfusion heq
    · rw [chunkTextAux, if_neg hs] at heq
      have hnil : cs = [] := (Option.some.inj heq).symm
      rw [hnil] at hch
      simp at hch
  | succ f ih =>
    intro start cid cs heq ch hch
    by_cases hs : start < (text.length : Int)
    · rw [chunkTextAux, if_pos hs] at heq
      have heq2 : (chunkTextAux text c o f (chunkEnd text c start - o) (cid + 1)).map
          (mkChunk text c start cid :: ·) = some cs := heq
      cases h' : chunkTextAux text c o f (chunkEnd text c start - o) (cid + 1) with
      | none =>
        rw [h'] at heq2
        exact Option.noConfusion heq2
      | some cs' =>
        rw [h'] at heq2
        have hcons : mkChunk text c start cid :: cs' = cs := Option.some.inj heq2
        rw [← hcons] at hch
        rcases List.mem_cons.mp hch with h | h
        · rw [h]
          simpa using chunkEnd_gt_start text c hc start
        · exact ih (chunkEnd text c start - o) (cid + 1) cs' h' ch h
    · rw [chunkTextAux, if_neg hs] at heq
      have hnil : cs = [] := (Option.some.inj heq).symm
      rw [hnil] at hch
      simp at hch

/-! Claim theorems about the chunker. -/

/-- Claim C9: chunking the empty text yields the empty chunk sequence for
every chunk size and overlap, and is not an error: the loop body is never
entered, so the operation returns normally. -/
theorem chunk_empty_text_eq_nil (chunkSize overlap : Int) :
    chunk_text "".toList chunkSize overlap = some [] := by
  rw [chunk_text, chunkTextAux]
  simp

/-- Claim C1 (amended): for every non-empty text and parameters with
0 le overlap lt chunk_size and additionally 2 * overlap le chunk_size + 2
(overlap strictly below every achievable chunk span, so every iteration
makes forward progress), the chunking loop terminates and produces a
non-empty finite chunk sequence whose ordinals are exactly 0..k-1 with no
gaps and whose start offsets strictly increase across successive chunks. -/
theorem chunker_terminates_with_contiguous_ordinals (text : List Char)
    (chunkSize overlap : Int) (_h0 : 0 ≤ overlap) (h1 : overlap < chunkSize)
    (h2 : 2 * overlap ≤ chunkSize + 2) (hne : text ≠ []) :
    ∃ cs, chunk_text text chunkSize overlap = some cs ∧ cs ≠ [] ∧
      cs.map Chunk.chunk_id = List.range cs.length ∧
      List.Chain' (· < ·) (cs.map Chunk.start_char) := by
  obtain ⟨cs, heq, hids, hchain, -, hne'⟩ :=
    chunkTextAux_spec text chunkSize overlap h1 h2 (text.length + 1) 0 0
      (by push_cast; omega)
  have hlen : 0 < (text.length : Int) := by exact_mod_cast List.length_pos.mpr hne
  refine ⟨cs, heq, hne' hlen, ?_, hchain⟩
  rw [hids]
  exact (List.range_eq_range' _).symm

/-- Witness: concrete run of the amended claim C1 at text ab, chunk size 2
and overlap 0, discharging every hypothesis. -/
theorem chunker_terminates_with_contiguous_ordinals_witness :
    ((0:Int) ≤ 0 ∧ (0:Int) < 2 ∧ 2 * (0:Int) ≤ 2 + 2 ∧ "ab".toList ≠ []) ∧
    (∃ cs, chunk_text "ab".toList 2 0 = some cs ∧ cs ≠ [] ∧
      cs.map Chunk.chunk_id = List.range cs.length ∧
      List.Chain' (· < ·) (cs.map Chunk.start_char)) :=
  ⟨by refine ⟨by decide, by decide, by decide, by decide⟩,
    chunker_terminates_with_contiguous_ordinals "ab".toList 2 0
      (by decide) (by decide) (by decide) (by decide)⟩

/-- Claim C1 counterexample: the text abcdefg.xy1234 (length 14, non-empty)
with chunk size 10 and overlap 8 satisfies 0 le overlap lt chunk_size, yet
the loop never terminates: the first window has its last period at index 7,
past half the chunk size, so the chunk is cut at end 8 and the cursor
returns to 8 - 8 = 0, a fixed point repeated forever.  The operation
therefore yields no finite chunk sequence (see chunkTextAux_fix: no fuel
bound completes the loop). -/
theorem chunker_termination_counterexample :
    ((0:Int) ≤ 8 ∧ (8:Int) < 10 ∧ "abcdefg.xy1234".toList ≠ []) ∧
    chunk_text "abcdefg.xy1234".toList 10 8 = none :=
  ⟨by refine ⟨by decide, by decide, by decide⟩, by
    rw [chunk_text]
    exact chunkTextAux_fix _ 10 8 0 (by decide) (by decide) _ _⟩

/-- Claim C2: the source never raises a ConfigurationError.  With
chunk_size 1 equal to overlap 1 on the text ab, the loop emits a chunk and
moves the cursor back to 0 on every iteration, so it runs forever
(no fuel bound completes it) instead of failing fast: _chunk_text
contains no parameter validation and no raise statement at all. -/
theorem chunk_text_equal_overlap_loops_forever :
    ∀ (fuel cid : Nat), chunkTextAux "ab".toList 1 1 fuel 0 cid = none := by
  intro fuel cid
  exact chunkTextAux_fix _ 1 1 0 (by decide) (by decide) fuel cid

/-- Claim C3 (amended): for parameters with 0 le overlap lt chunk_size,
every chunk of a terminating chunking run satisfies end_char gt
start_char.  The two other original conjuncts are false on the code (see
the counterexample): end_char is the unclamped tentative end, so it can
exceed the text length, and start_char can decrease across successive
chunks when the boundary shrink makes a chunk span at most the overlap. -/
theorem chunk_end_char_gt_start_char (text : List Char) (chunkSize overlap : Int)
    (h0 : 0 ≤ overlap) (h1 : overlap < chunkSize) (cs : List Chunk)
    (heq : chunk_text text chunkSize overlap = some cs) :
    ∀ ch ∈ cs, ch.start_char < ch.end_char :=
  chunkTextAux_end_gt_start text chunkSize overlap (by omega) _ _ _ _ heq

/-- Witness: the amended claim C3 applied to the concrete run at text ab,
chunk size 2, overlap 0, discharging every hypothesis. -/
theorem chunk_end_char_gt_start_char_witness :
    ((0:Int) ≤ 0 ∧ (0:Int) < 2 ∧
      chunk_text "ab".toList 2 0 = some [⟨0, "ab".toList, 0, 2, 2⟩]) ∧
    (∀ ch ∈ [(⟨0, "ab".toList, 0, 2, 2⟩ : Chunk)], ch.start_char < ch.end_char) :=
  ⟨by refine ⟨by decide, by decide, by decide⟩,
    chunk_end_char_gt_start_char "ab".toList 2 0 (by decide) (by decide) _ (by decide)⟩

/-- Claim C3 counterexample: at text abcdef.ghijklmn (length 15) with
chunk size 10 and overlap 8 (valid parameters for the claim), chunking
terminates with start offsets 0, -1, 1, 3, 5, 7, 9, 11, 13 — not
non-decreasing, since the boundary shrink of the first chunk moves the
cursor back past the start of the text — and end offsets up to 23, which
exceed the text length 15 because the recorded end is never clamped. -/
theorem chunk_invariants_counterexample :
    ((0:Int) ≤ 8 ∧ (8:Int) < 10) ∧
    ((chunk_text "abcdef.ghijklmn".toList 10 8).getD []).map Chunk.start_char =
      [0, -1, 1, 3, 5, 7, 9, 11, 13] ∧
    ((chunk_text "abcdef.ghijklmn".toList 10 8).getD []).map Chunk.end_char =
      [7, 9, 11, 13, 15, 17, 19, 21, 23] ∧
    "abcdef.ghijklmn".toList.length = 15 := by
  refine ⟨⟨by decide, by decide⟩, by decide, by decide, by decide⟩

/-! Helper lemma for indexing mapped lists. -/

/-- Indexing with default commutes with map at every in-range index. -/
lemma getD_map {α β : Type} (f : α → β) :
    ∀ (l : List α) (i : Nat), i < l.length → ∀ (d : α) (d' : β),
      (l.map f).getD i d' = f (l.getD i d) := by
  intro l
  induction l with
  | nil =>
    intro i h d d'
    simp at h
  | cons a t ih =>
    intro i h d d'
    cases i with
    | zero => rfl
    | succ j =>
      have hj : j < t.length := by
        simp only [List.length_cons] at h
        omega
      simpa using ih j hj d d'

/-! Claim theorems about RAGService.query. -/

/-- Claim C4 counterexample: when retrieval returns zero results, the
short-circuit dictionary of the source (the literal return of lines 61-67)
is built without the num_sources key, so the short-circuit result does not
carry all six fields the claim lists. -/
theorem rag_query_missing_num_sources_counterexample :
    (rag_query [] "" "gpt-4" 0 1).num_sources = none := rfl

/-- Claim C4 (amended): query returns answer, sources, context_used,
processing_time and model_used on every path, and num_sources on the
non-empty path; when retrieval returns zero results it short-circuits with
the fixed no-relevant-information answer, empty sources, empty context and
non-negative elapsed time, but that short-circuit dictionary omits the
num_sources key. -/
theorem rag_query_spec (results : List SearchResult) (gen model : String)
    (t0 t1 : ℚ) (ht : t0 ≤ t1) :
    0 ≤ (rag_query results gen model t0 t1).processing_time ∧
    (results = [] →
      rag_query results gen model t0 t1 =
        { answer := noInfoAnswer, sources := [], context_used := "",
          processing_time := t1 - t0, model_used := model, num_sources := none }) ∧
    (results ≠ [] →
      rag_query results gen model t0 t1 =
        { answer := gen, sources := results, context_used := build_context results,
          processing_time := t1 - t0, model_used := model,
          num_sources := some results.length }) := by
  refine ⟨?_, ?_, ?_⟩
  · have hpt : (rag_query results gen model t0 t1).processing_time = t1 - t0 := by
      rw [rag_query]
      split_ifs <;> rfl
    rw [hpt]
    linarith
  · intro h
    subst h
    rfl
  · intro h
    cases results with
    | nil => exact absurd rfl h
    | cons a l => rfl

/-- Witness: the amended claim C4 at a concrete empty retrieval with clock
readings 0 and 1, discharging the clock hypothesis. -/
theorem rag_query_spec_witness :
    ((0:ℚ) ≤ 1) ∧
    0 ≤ (rag_query [] "" "gpt-4" 0 1).processing_time ∧
    rag_query [] "" "gpt-4" 0 1 =
      { answer := noInfoAnswer, sources := [], context_used := "",
        processing_time := 1 - 0, model_used := "gpt-4", num_sources := none } :=
  ⟨by norm_num, (rag_query_spec [] "" "gpt-4" 0 1 (by norm_num)).1,
    (rag_query_spec [] "" "gpt-4" 0 1 (by norm_num)).2.1 rfl⟩

/-! Claim theorems about VectorStoreService. -/

/-- Claim C5 counterexample: when the underlying count call fails,
get_collection_stats does not surface a typed error: its except block
swallows the failure and returns an empty dictionary. -/
theorem get_collection_stats_swallows_failure_counterexample :
    get_collection_stats (Except.error "storage backend failure")
      "financial_documents" 384 = [] := rfl

/-- Claim C5 (amended): add_documents, search, delete_documents and
clear_collection propagate every backend failure to the caller and abort,
but get_collection_stats alone silently degrades: on a failed count call
it returns an empty dictionary instead of raising. -/
theorem vector_store_error_propagation :
    (∀ (e : String) (q : List ℚ → Except String ChromaQueryResponse),
      vs_search (Except.error e) q = Except.error e) ∧
    (∀ (emb : List ℚ) (e : String),
      vs_search (Except.ok emb) (fun _ => Except.error e) = Except.error e) ∧
    (∀ (e : String) (f : List (List ℚ) → Except String Unit),
      vs_add (Except.error e) f = Except.error e) ∧
    (∀ (embs : List (List ℚ)) (e : String),
      vs_add (Except.ok embs) (fun _ => Except.error e) = Except.error e) ∧
    (∀ e : String, vs_delete (Except.error e) = Except.error e) ∧
    (∀ (e : String) (create : Except String Unit),
      vs_clear (Except.error e) create = Except.error e) ∧
    (∀ e : String, vs_clear (Except.ok ()) (Except.error e) = Except.error e) ∧
    (∀ (e nm : String) (dim : Nat), get_collection_stats (Except.error e) nm dim = []) :=
  ⟨fun _ _ => rfl, fun _ _ => rfl, fun _ _ => rfl, fun _ _ => rfl,
    fun _ => rfl, fun _ _ => rfl, fun _ => rfl, fun _ _ _ => rfl⟩

/-! Claim theorems about MLService. -/

/-- Claim C6: forecast_expenses returns the insufficient-data result with
empty forecast and interval lists for histories shorter than 3, and
otherwise the moving-average result whose forecast repeats the mean of the
last 3 values periods times, whose baseline is that mean and whose
confidence intervals are all mean plus or minus 1.96 times the standard
deviation (the pandas sample standard deviation, delta degrees of freedom
1) of those last 3 values. -/
theorem forecast_expenses_spec (history : List ℝ) (periods : Nat) :
    (history.length < 3 →
      forecast_expenses history periods =
        { forecast := [], confidence_interval := [],
          method := "insufficient_data", baseline := none }) ∧
    (3 ≤ history.length →
      (forecast_expenses history periods).method = "moving_average" ∧
      (forecast_expenses history periods).baseline = some (listMean (lastN 3 history)) ∧
      (forecast_expenses history periods).forecast.length = periods ∧
      (∀ x ∈ (forecast_expenses history periods).forecast,
        x = listMean (lastN 3 history)) ∧
      (forecast_expenses history periods).confidence_interval =
        List.replicate periods
          (listMean (lastN 3 history) - 1.96 * sampleStd (lastN 3 history),
            listMean (lastN 3 history) + 1.96 * sampleStd (lastN 3 history))) := by
  constructor
  · intro h
    rw [forecast_expenses, if_pos h]
  · intro h
    have h' : ¬ history.length < 3 := by omega
    rw [forecast_expenses, if_neg h']
    refine ⟨rfl, rfl, List.length_replicate _ _, ?_, ?_⟩
    · intro x hx
      exact List.eq_of_mem_replicate hx
    · show (List.replicate periods (listMean (lastN 3 history))).map _ = _
      rw [List.map_replicate]

/-- Witness: claim C6 at the two concrete inputs of the specification,
discharging the length hypothesis of each branch: forecast of the history
5 with 2 periods is the insufficient-data result, and forecast of the
history 10, 12, 11 with 2 periods uses the moving-average method with both
forecast values equal to the mean 11 of the three values. -/
theorem forecast_expenses_spec_witness :
    (([5] : List ℝ).length < 3 ∧
      (forecast_expenses [5] 2).method = "insufficient_data") ∧
    (3 ≤ ([10, 12, 11] : List ℝ).length ∧
      (forecast_expenses [10, 12, 11] 2).method = "moving_average" ∧
      (forecast_expenses [10, 12, 11] 2).forecast = [11, 11]) := by
  have h1 := (forecast_expenses_spec ([5] : List ℝ) 2).1 (by simp)
  have h2 := (forecast_expenses_spec ([10, 12, 11] : List ℝ) 2).2 (by simp)
  refine ⟨⟨by simp, by rw [h1]⟩, by simp, h2.1, ?_⟩
  have hm : listMean (lastN 3 ([10, 12, 11] : List ℝ)) = 11 := by
    rw [lastN, listMean]
    norm_num
  have hf : (forecast_expenses ([10, 12, 11] : List ℝ) 2).forecast =
      List.replicate 2 (listMean (lastN 3 ([10, 12, 11] : List ℝ))) := by
    rw [forecast_expenses, if_neg (by norm_num)]
  rw [hf, hm]
  rfl

/-- Claim C7: detect_anomalies preserves the input length, returns
all-false flags when there are fewer than 2 transactions or when the
population standard deviation of the absolute amounts is zero, and
otherwise flags exactly the positions whose absolute amount deviates from
the mean of all absolute amounts by more than threshold times that
standard deviation. -/
theorem detect_anomalies_spec (transactions : List Transaction) (threshold : ℝ) :
    (detect_anomalies transactions threshold).length = transactions.length ∧
    (transactions.length < 2 →
      detect_anomalies transactions threshold =
        List.replicate transactions.length false) ∧
    (popStd (transactions.map absAmount) = 0 →
      detect_anomalies transactions threshold =
        List.replicate transactions.length false) ∧
    (2 ≤ transactions.length → popStd (transactions.map absAmount) ≠ 0 →
      ∀ i, i < transactions.length →
        ((detect_anomalies transactions threshold).getD i false = true ↔
          |absAmount (transactions.getD i ⟨none, none⟩) -
              listMean (transactions.map absAmount)| >
            threshold * popStd (transactions.map absAmount))) := by
  refine ⟨?_, ?_, ?_, ?_⟩
  · rw [detect_anomalies]
    split_ifs <;> simp
  · intro h
    have h' : (transactions.map absAmount).length < 2 := by simpa using h
    rw [detect_anomalies, if_pos h', List.length_map]
  · intro h
    by_cases h1 : (transactions.map absAmount).length < 2
    · rw [detect_anomalies, if_pos h1, List.length_map]
    · rw [detect_anomalies, if_neg h1, if_pos h, List.length_map]
  · intro hlen hstd i hi
    have h1 : ¬ (transactions.map absAmount).length < 2 := by
      rw [List.length_map]
      omega
    rw [detect_anomalies, if_neg h1, if_neg hstd]
    rw [getD_map _ (transactions.map absAmount)
      i (by rw [List.length_map]; exact hi) 0 false]
    rw [getD_map absAmount transactions i hi ⟨none, none⟩ 0]
    exact decide_eq_true_iff

/-- Witness: claim C7 at the concrete single-transaction input of the
specification, discharging the short-list hypothesis: one transaction of
amount 10 at threshold 2 yields the flag list with the single entry
false. -/
theorem detect_anomalies_spec_witness :
    (([⟨none, some 10⟩] : List Transaction).length < 2) ∧
    detect_anomalies [⟨none, some 10⟩] 2 = [false] := by
  have h := (detect_anomalies_spec [⟨none, some (10:ℝ)⟩] 2).2.1 (by simp)
  exact ⟨by simp, by simpa using h⟩

/-- A predicate false on a prefix and true at the next element makes find?
return that element. -/
lemma find?_append_cons {α : Type} (p : α → Bool) :
    ∀ (pre : List α) (x : α) (post : List α),
      (∀ y ∈ pre, p y = false) → p x = true →
      List.find? p (pre ++ x :: post) = some x := by
  intro pre
  induction pre with
  | nil =>
    intro x post hpre hx
    simpa using List.find?_cons_of_pos post hx
  | cons a t ih =>
    intro x post hpre hx
    have ha : p a = false := hpre a (List.mem_cons_self a t)
    rw [List.cons_append, List.find?_cons_of_neg _ (by simp [ha])]
    exact ih x post (fun y hy => hpre y (List.mem_cons_of_mem a hy)) hx

/-- Claim C8: categorize_expenses returns one label per transaction,
obtained by lowering the description and taking the first row of the
static keyword table, in its fixed order, with a case-insensitive
substring match, and the Other label when no row matches; in particular
the two concrete examples of the specification hold. -/
theorem categorize_expenses_spec :
    (∀ transactions : List Transaction,
      (categorize_expenses transactions).length = transactions.length) ∧
    (∀ (transactions : List Transaction) (i : Nat), i < transactions.length →
      (categorize_expenses transactions).getD i "" =
        categorize_single
          (pyLower ((transactions.getD i ⟨none, none⟩).description.getD ""))) ∧
    (∀ d : String,
      (∀ row ∈ category_keywords, matchesCategory (pyLower d) row = false) →
      categorize_single d = "Other") ∧
    (∀ (d : String) (pre : List (String × List String))
        (row : String × List String) (post : List (String × List String)),
      category_keywords = pre ++ row :: post →
      (∀ r ∈ pre, matchesCategory (pyLower d) r = false) →
      matchesCategory (pyLower d) row = true →
      categorize_single d = row.1) ∧
    categorize_expenses [⟨some "Grocery run at Walmart", none⟩] = ["Food & Dining"] ∧
    categorize_expenses [⟨some "xyz123", none⟩] = ["Other"] := by
  refine ⟨?_, ?_, ?_, ?_, by decide, by decide⟩
  · intro txs
    exact List.length_map _ _
  · intro txs i hi
    exact getD_map _ txs i hi ⟨none, none⟩ ""
  · intro d hnone
    rw [categorize_single,
      List.find?_eq_none.mpr (fun x hx => by simp [hnone x hx])]
  · intro d pre row post heq hpre hrow
    rw [categorize_single, heq, find?_append_cons _ pre row post hpre hrow]

/-- Witness: claim C8 applied at a concrete transaction list and index,
discharging the index hypothesis. -/
theorem categorize_expenses_spec_witness :
    (0 < ([⟨some "Grocery run at Walmart", none⟩] : List Transaction).length) ∧
    (categorize_expenses [⟨some "Grocery run at Walmart", none⟩]).getD 0 "" =
      categorize_single (pyLower
        ((([⟨some "Grocery run at Walmart", none⟩] : List Transaction).getD 0
          ⟨none, none⟩).description.getD "")) :=
  ⟨by simp, categorize_expenses_spec.2.1 [⟨some "Grocery run at Walmart", none⟩] 0 (by simp)⟩

/-- Claim C10: the analytics operations are total with fixed defaults for
missing dictionary keys: a transaction without an amount contributes the
absolute amount 0 to the anomaly statistics, and a transaction without a
description is labeled Other by categorization (the empty default
description matches no keyword).  Both embeddings are total functions, so
neither operation can fail on such input. -/
theorem analytics_missing_field_defaults :
    (∀ d : Option String, absAmount ⟨d, none⟩ = 0) ∧
    (∀ (transactions : List Transaction) (i : Nat), i < transactions.length →
      (transactions.getD i ⟨none, none⟩).amount = none →
      (transactions.map absAmount).getD i 0 = 0) ∧
    (∀ (transactions : List Transaction) (i : Nat), i < transactions.length →
      (transactions.getD i ⟨none, none⟩).description = none →
      (categorize_expenses transactions).getD i "" = "Other") := by
  refine ⟨?_, ?_, ?_⟩
  · intro d
    simp [absAmount]
  · intro txs i hi ha
    rw [getD_map absAmount txs i hi ⟨none, none⟩ 0, absAmount, ha]
    simp
  · intro txs i hi hd
    rw [categorize_expenses, getD_map _ txs i hi ⟨none, none⟩ ""]
    show categorize_single (pyLower ((txs.getD i ⟨none, none⟩).description.getD "")) = _
    rw [hd]
    decide

/-- Witness: claim C10 at a concrete transaction with both keys absent,
discharging the index and key-absence hypotheses. -/
theorem analytics_missing_field_defaults_witness :
    (0 < ([⟨none, none⟩] : List Transaction).length ∧
      (([⟨none, none⟩] : List Transaction).getD 0 ⟨none, none⟩).amount = none ∧
      (([⟨none, none⟩] : List Transaction).getD 0 ⟨none, none⟩).description = none) ∧
    absAmount ⟨none, none⟩ = 0 ∧
    (([⟨none, none⟩] : List Transaction).map absAmount).getD 0 0 = 0 ∧
    (categorize_expenses [⟨none, none⟩]).getD 0 "" = "Other" :=
  ⟨⟨by simp, rfl, rfl⟩, analytics_missing_field_defaults.1 none,
    analytics_missing_field_defaults.2.1 [⟨none, none⟩] 0 (by simp) rfl,
    analytics_missing_field_defaults.2.2 [⟨none, none⟩] 0 (by simp) rfl⟩

end FinWise
